import Mathlib

/-!
# Verification of the RustNAO `Handler` module

A shallow embedding of `src/handler.rs`, the handler for the SauceNAO API
calls, together with theorems checking the natural-language specification
against it.

Conventions of the embedding:
* `u32` values become `Nat`; `i32` values become `Int`.  Arithmetic overflow
  of `u32::pow` (a Rust panic) is modelled by returning `Option.none`.
* `f64` similarity values are modelled as `Rat`; the API reports similarities
  as short decimal strings, on which rational arithmetic agrees with `f64`.
* The interior-mutable `Cell` fields of `Handler` become plain fields, with
  explicit state passing: `get_sauce` returns the updated `Handler`.
* The HTTP layer is an oracle: `get_sauce` receives the decoded server
  response as an argument and reports the list of HTTP requests it issued.
* Rust `panic!`/`unwrap` failures are modelled by `Option.none`; recoverable
  `Result` errors by `Except.error`.
-/

deriving instance DecidableEq for Except

namespace RustNAO

/-- Modelled from the spec: `constants::API_URL` lives in `constants.rs`,
which is not under `src/`; the spec describes a single third-party reverse
image-search HTTP API.  Only the query pairs appended to this base URL
matter to the claims. -/
def API_URL : String := "https://saucenao.com/search.php"

/-- A data source entry, as in `constants::Source` (from `constants.rs`,
not under `src/`): an index and a display name. -/
structure Source where
  index : Nat
  name : String
deriving DecidableEq

/-- Modelled from the spec: `constants::LIST_OF_SOURCES` from `constants.rs`
is not under `src/`; the spec speaks of a constant table of roughly thirty
fixed data-source indices with names.  No claim depends on its exact
contents. -/
def LIST_OF_SOURCES : List Source :=
  [⟨0, "H-Magazines"⟩, ⟨2, "H-Game CG"⟩, ⟨3, "DoujinshiDB"⟩, ⟨5, "Pixiv"⟩,
   ⟨8, "Nico Nico Seiga"⟩, ⟨9, "Danbooru"⟩, ⟨10, "drawr Images"⟩,
   ⟨11, "Nijie Images"⟩, ⟨12, "Yande.re"⟩, ⟨15, "Shutterstock"⟩,
   ⟨16, "FAKKU"⟩, ⟨18, "H-Misc"⟩, ⟨19, "2D-Market"⟩, ⟨20, "MediBang"⟩,
   ⟨21, "Anime"⟩, ⟨22, "H-Anime"⟩, ⟨23, "Movies"⟩, ⟨24, "Shows"⟩,
   ⟨25, "Gelbooru"⟩, ⟨26, "Konachan"⟩, ⟨27, "Sankaku Channel"⟩,
   ⟨28, "Anime-Pictures.net"⟩, ⟨29, "e621.net"⟩, ⟨30, "Idol Complex"⟩,
   ⟨31, "bcy.net Illust"⟩, ⟨32, "bcy.net Cosplay"⟩, ⟨33, "PortalGraphics.net"⟩,
   ⟨34, "deviantArt"⟩, ⟨35, "Pawoo.net"⟩, ⟨36, "Madokami"⟩, ⟨37, "MangaDex"⟩]

/-- The `Handler` struct of `handler.rs`.  The `Cell<_>` fields
(`short_limit`, `long_limit`, `short_left`, `long_left`, `min_similarity`,
`empty_filter_enabled`) are plain fields here; mutation is explicit state
passing. -/
structure Handler where
  api_key : String
  output_type : Int
  testmode : Option Int
  db_mask : Option (List Nat)
  db_mask_i : Option (List Nat)
  db : Option Nat
  num_results : Option Int
  short_limit : Nat
  long_limit : Nat
  short_left : Nat
  long_left : Nat
  min_similarity : Rat
  empty_filter_enabled : Bool
deriving DecidableEq

/-- `Handler::new` (handler.rs lines 420-436): default limits 12/200,
minimum similarity 0.0, empty filter disabled, output type 2. -/
def Handler.new (api_key : String) (testmode : Option Int)
    (db_mask : Option (List Nat)) (db_mask_i : Option (List Nat))
    (db : Option Nat) (num_results : Option Int) : Handler :=
  { api_key := api_key
    output_type := 2
    testmode := testmode
    db_mask := db_mask
    db_mask_i := db_mask_i
    db := db
    num_results := num_results
    short_limit := 12
    long_limit := 200
    short_left := 12
    long_left := 200
    min_similarity := 0
    empty_filter_enabled := false }

/-- `Handler::get_source` (handler.rs lines 310-318): linear scan over
`LIST_OF_SOURCES`, keeping the last entry whose index matches. -/
def get_source (index : Nat) : Option Source :=
  LIST_OF_SOURCES.foldl (fun acc src => if src.index = index then some src else acc) none

/-- The loop body accumulator of `Handler::generate_bitmask`
(handler.rs lines 322-332): for each `m`, an offset of 1 is applied when
`m >= 18`, and `res ^= u32::pow(2, m - offset)`.  `u32::pow` overflows
(panics) exactly when the exponent is at least 32, modelled as `none`. -/
def generate_bitmask_go (res : Nat) : List Nat → Option Nat
  | [] => some res
  | m :: rest =>
    let offset : Nat := if 18 ≤ m then 1 else 0
    if 32 ≤ m - offset then none
    else generate_bitmask_go (res ^^^ 2 ^ (m - offset)) rest

/-- `Handler::generate_bitmask` (handler.rs lines 322-332). -/
def generate_bitmask (mask : List Nat) : Option Nat :=
  generate_bitmask_go 0 mask

/-- The single bit contributed by one mask element, as the specification
describes it: `2 ^ (m - 1)` for `m ≥ 18` and `2 ^ m` below. -/
def bit_of (m : Nat) : Nat := if 18 ≤ m then 2 ^ (m - 1) else 2 ^ m

/-- The specification-side bitmask: the XOR-fold, starting from 0, of one
bit per element. -/
def bitmask_spec (mask : List Nat) : Nat :=
  (mask.map bit_of).foldl (fun r b => r ^^^ b) 0

/-- Rust `str::starts_with` over the characters of a string. -/
def strStartsWith (s p : String) : Bool :=
  p.data.isPrefixOf s.data

/-- Rust `str::split` on a one-character pattern, over the characters of a
string: the (always non-empty) list of segments between occurrences. -/
def splitChars (p : Char → Bool) : List Char → List (List Char)
  | [] => [[]]
  | c :: rest =>
    let r := splitChars p rest
    if p c then [] :: r
    else
      match r with
      | [] => [[c]]
      | x :: xs => (c :: x) :: xs

/-- Whether `image_path` is submitted as a link (handler.rs lines 394 and
551): it starts with `https://` or `http://`. -/
def is_link (image_path : String) : Bool :=
  strStartsWith image_path "https://" || strStartsWith image_path "http://"

/-- The `db` query pair of `generate_url` (handler.rs lines 340-345). -/
def db_part (h : Handler) : List (String × String) :=
  match h.db with
  | some val => [("db", toString val)]
  | none => []

/-- The `dbmask` / default-`db=999` query pairs of `generate_url`
(handler.rs lines 347-362).  `none` models the panic of
`generate_bitmask` on an overflowing mask. -/
def dbmask_part (h : Handler) : Option (List (String × String)) :=
  match h.db_mask with
  | some val =>
    if 0 < val.length then
      (generate_bitmask val).map (fun bm => [("dbmask", toString bm)])
    else if h.db.isNone then some [("db", "999")] else some []
  | none => if h.db.isNone then some [("db", "999")] else some []

/-- The `dbmaski` query pairs of `generate_url` (handler.rs lines 363-370). -/
def dbmaski_part (h : Handler) : Option (List (String × String)) :=
  match h.db_mask_i with
  | some val =>
    if 0 < val.length then
      (generate_bitmask val).map (fun bm => [("dbmaski", toString bm)])
    else some []
  | none => some []

/-- The `testmode` query pair of `generate_url` (handler.rs lines 372-379). -/
def testmode_part (h : Handler) : List (String × String) :=
  match h.testmode with
  | some val => [("testmode", toString val)]
  | none => [("testmode", "0")]

/-- The `numres` query pair of `generate_url` (handler.rs lines 381-393). -/
def numres_part (h : Handler) (num_results : Option Nat) : List (String × String) :=
  match num_results with
  | some results => [("numres", toString results)]
  | none =>
    match h.num_results with
    | some val => [("numres", toString val)]
    | none => [("numres", "999")]

/-- The `url` query pair of `generate_url` (handler.rs lines 394-397). -/
def url_part (image_path : String) : List (String × String) :=
  if is_link image_path then [("url", image_path)] else []

/-- `Handler::generate_url` (handler.rs lines 335-400), as the ordered list
of query pairs appended to `API_URL`.  `Url::parse` of the constant
`API_URL` cannot fail, so the only failure is the panic of
`generate_bitmask`, modelled by `none`. -/
def generate_url (h : Handler) (image_path : String) (num_results : Option Nat) :
    Option (List (String × String)) := do
  let mp ← dbmask_part h
  let mip ← dbmaski_part h
  pure ([("api_key", h.api_key), ("output_type", toString h.output_type)]
    ++ db_part h ++ mp ++ mip ++ testmode_part h
    ++ numres_part h num_results ++ url_part image_path)

/-- Modelled from the spec: the error enum of `error.rs` is not under
`src/`; the handler constructs invalid-parameter errors and invalid-code
errors, and propagates I/O errors from attaching a local file. -/
inductive Error where
  | invalid_parameter (message : String)
  | invalid_code (code : Int) (message : String)
  | file_error (path : String)
deriving DecidableEq

/-- Modelled from the spec: the per-result header of the deserialized JSON
response (`deserialize.rs` is not under `src/`), with the fields
`handler.rs` reads: a similarity string, a thumbnail URL, an index id and
an index name. -/
structure ResultHeader where
  similarity : String
  thumbnail : String
  index_id : Nat
  index_name : String
deriving DecidableEq

/-- Modelled from the spec: the per-result data of the deserialized JSON
response (`deserialize.rs` is not under `src/`): external URLs, a title
and the remaining fields, kept as one opaque serialized blob. -/
structure ResultData where
  ext_urls : List String
  title : String
  additional_fields : String
deriving DecidableEq

/-- One raw result of the deserialized response. -/
structure RawSauce where
  header : ResultHeader
  data : ResultData
deriving DecidableEq

/-- Modelled from the spec: the top-level header of the deserialized
response (`deserialize.rs` is not under `src/`), with the fields
`handler.rs` reads: a status, the remaining short/long counts, the
short/long limits as strings, and a message. -/
structure ResponseHeader where
  status : Int
  short_remaining : Nat
  long_remaining : Nat
  short_limit : String
  long_limit : String
  message : String
deriving DecidableEq

/-- The deserialized server response, `deserialize::SauceResult`. -/
structure SauceResult where
  header : ResponseHeader
  results : Option (List RawSauce)
deriving DecidableEq

/-- Modelled from the spec: the typed result structure `Sauce` of
`sauce.rs` (not under `src/`), with the fields `sauce::new_sauce` is
called with in `handler.rs`. -/
structure Sauce where
  ext_urls : List String
  title : String
  site : String
  index : Nat
  index_id : Nat
  similarity : Rat
  thumbnail : String
  additional_fields : Option String
deriving DecidableEq

/-- Whether a character list is a non-empty run of decimal digits. -/
def isDigits (cs : List Char) : Bool :=
  !cs.isEmpty && cs.all (fun c => c.isDigit)

/-- The numeric value of a run of decimal digits. -/
def digitsToNat (cs : List Char) : Nat :=
  cs.foldl (fun acc c => acc * 10 + (c.toNat - 48)) 0

/-- Rust `str::parse::<u32>` on the digit strings the API reports:
a non-empty all-digit run whose value fits in 32 bits. -/
def parseU32Chars (cs : List Char) : Option Nat :=
  if isDigits cs && digitsToNat cs < 2 ^ 32 then some (digitsToNat cs)
  else none

/-- Rust `str::parse::<u32>` on a string. -/
def parseU32 (s : String) : Option Nat :=
  parseU32Chars s.data

/-- Rust `str::parse::<f64>` on the decimal similarity strings the API
reports (such as `"93.21"`), modelled exactly on rationals: an integer
part, optionally a fractional part after one dot. -/
def parseF64 (s : String) : Option Rat :=
  match splitChars (fun c => c = '.') s.data with
  | [w] => if isDigits w then some (mkRat (digitsToNat w) 1) else none
  | [w, f] =>
    if isDigits w && isDigits f then
      some (mkRat (digitsToNat w * 10 ^ f.length + digitsToNat f) (10 ^ f.length))
    else none
  | _ => none

/-- The index parsed from an `index_name` (handler.rs lines 576-579):
the text before the first `:`, then the text between the first `#` and the
next `#` (panic, i.e. `none`, when there is no `#`), parsed as `u32`. -/
def parse_index (index_name : String) : Option Nat :=
  let first_colon := (splitChars (fun c => c = ':') index_name.data).headD []
  match splitChars (fun c => c = '#') first_colon with
  | _ :: second :: _ => parseU32Chars second
  | _ => none

/-- Conversion of one raw result into a typed `Sauce`
(handler.rs lines 580-610): when `get_source` knows the index, the source
name is used as site and the additional fields are serialized (which
cannot fail, so always `some`); otherwise the raw index name is used and
the additional fields are dropped. -/
def convert_sauce (raw : RawSauce) (actual_index : Nat) (sim : Rat) : Sauce :=
  match get_source actual_index with
  | some src =>
    ⟨raw.data.ext_urls, raw.data.title, src.name, actual_index,
      raw.header.index_id, sim, raw.header.thumbnail, some raw.data.additional_fields⟩
  | none =>
    ⟨raw.data.ext_urls, raw.data.title, raw.header.index_name, actual_index,
      raw.header.index_id, sim, raw.header.thumbnail, none⟩

/-- The result filter of `get_sauce` (handler.rs line 575), on the
specification side: the parsed similarity meets the effective minimum and,
when the empty filter is enabled, the external URL list is non-empty. -/
def passes_filter (empty_filter : Bool) (actual_min : Rat) (raw : RawSauce) : Bool :=
  match parseF64 raw.header.similarity with
  | some sim =>
    decide (actual_min ≤ sim) &&
      (empty_filter && decide (0 < raw.data.ext_urls.length) || !empty_filter)
  | none => false

/-- The result loop of `get_sauce` (handler.rs lines 573-612): each raw
result has its similarity parsed (`unwrap`: `none` on failure); passing
results additionally have their index parsed (`unwrap`) and are converted
and pushed in order. -/
def process_results (empty_filter : Bool) (actual_min : Rat) :
    List RawSauce → Option (List Sauce)
  | [] => some []
  | raw :: rest => do
    let sim ← parseF64 raw.header.similarity
    if actual_min ≤ sim ∧ ((empty_filter ∧ 0 < raw.data.ext_urls.length) ∨ ¬ empty_filter) then do
      let idx ← parse_index raw.header.index_name
      let sim2 ← parseF64 raw.header.similarity
      let more ← process_results empty_filter actual_min rest
      pure (convert_sauce raw idx sim2 :: more)
    else
      process_results empty_filter actual_min rest

/-- One part of the multipart form: a file upload under a field name. -/
inductive FormPart where
  | file (field : String) (path : String)
deriving DecidableEq

/-- One HTTP POST request to the API: the query pairs of its URL and its
multipart form. -/
structure HttpRequest where
  query : List (String × String)
  form : List FormPart
deriving DecidableEq

/-- The `num_results` validity check of `get_sauce`
(handler.rs lines 532-539). -/
def num_results_invalid (num_results : Option Nat) : Bool :=
  match num_results with
  | some n => decide (999 < n)
  | none => false

/-- The `min_similarity` validity check of `get_sauce`
(handler.rs lines 540-547). -/
def min_similarity_invalid (min_similarity : Option Rat) : Bool :=
  match min_similarity with
  | some s => decide (100 < s) || decide (s < 0)
  | none => false

/-- `Handler::get_sauce` after parameter validation
(handler.rs lines 549-620).  `file_ok` is the file-system oracle for
attaching a local file; `resp` is the decoded server response for the one
request the function can make.  The first component lists the issued
requests; the second is `none` on panic, otherwise the result and the
updated handler. -/
def get_sauce_after_validation (h : Handler) (image_path : String)
    (num_results : Option Nat) (min_similarity : Option Rat)
    (file_ok : String → Bool) (resp : SauceResult) :
    List HttpRequest × Option (Except Error (List Sauce) × Handler) :=
  match generate_url h image_path num_results with
  | none => ([], none)
  | some query =>
    if !is_link image_path && !file_ok image_path then
      ([], some (Except.error (Error.file_error image_path), h))
    else
      let form : List FormPart :=
        if is_link image_path then [] else [FormPart.file "file" image_path]
      let req : HttpRequest := ⟨query, form⟩
      if 0 ≤ resp.header.status then
        match parseU32 resp.header.short_limit, parseU32 resp.header.long_limit with
        | some sl, some ll =>
          let h' : Handler :=
            { h with short_left := resp.header.short_remaining
                     long_left := resp.header.long_remaining
                     short_limit := sl
                     long_limit := ll }
          let actual_min : Rat :=
            match min_similarity with
            | some min_sim => min_sim
            | none => h.min_similarity
          match resp.results with
          | some res =>
            match process_results h.empty_filter_enabled actual_min res with
            | some l => ([req], some (Except.ok l, h'))
            | none => ([req], none)
          | none => ([req], some (Except.ok [], h'))
        | _, _ => ([req], none)
      else
        ([req], some (Except.error (Error.invalid_code resp.header.status resp.header.message), h))

/-- `Handler::get_sauce` (handler.rs lines 530-620). -/
def get_sauce (h : Handler) (image_path : String) (num_results : Option Nat)
    (min_similarity : Option Rat) (file_ok : String → Bool) (resp : SauceResult) :
    List HttpRequest × Option (Except Error (List Sauce) × Handler) :=
  if num_results_invalid num_results then
    ([], some (Except.error (Error.invalid_parameter "num_results must be less than 999."), h))
  else if min_similarity_invalid min_similarity then
    ([], some (Except.error
      (Error.invalid_parameter "min_similarity must be less 100.0 and greater than 0.0."), h))
  else
    get_sauce_after_validation h image_path num_results min_similarity file_ok resp

/-- `Handler::get_short_limit` (handler.rs lines 474-476). -/
def get_short_limit (h : Handler) : Nat := h.short_limit

/-- `Handler::get_long_limit` (handler.rs lines 486-488). -/
def get_long_limit (h : Handler) : Nat := h.long_limit

/-- `Handler::get_current_short_limit` (handler.rs lines 498-500). -/
def get_current_short_limit (h : Handler) : Nat := h.short_left

/-- `Handler::get_current_long_limit` (handler.rs lines 510-512). -/
def get_current_long_limit (h : Handler) : Nat := h.long_left

/-- A JSON string literal (escaping elided; no claim depends on it). -/
def jsonStr (s : String) : String := "\"" ++ s ++ "\""

/-- A JSON array out of already-rendered members. -/
def jsonList (xs : List String) : String := "[" ++ String.intercalate "," xs ++ "]"

/-- Modelled from the spec: `serde_json::to_string` on a `Vec<Sauce>`.
The `Serialize` implementation lives in `sauce.rs`, which is not under
`src/`; the claims only need that `get_sauce_as_json` and `to_json` apply
one and the same serialization. -/
def serde_json_to_string (v : List Sauce) : String :=
  jsonList (v.map (fun s =>
    "\x7b" ++ jsonStr "ext_urls" ++ ":" ++ jsonList (s.ext_urls.map jsonStr) ++ ","
      ++ jsonStr "title" ++ ":" ++ jsonStr s.title ++ ","
      ++ jsonStr "site" ++ ":" ++ jsonStr s.site ++ ","
      ++ jsonStr "index" ++ ":" ++ toString s.index ++ ","
      ++ jsonStr "index_id" ++ ":" ++ toString s.index_id ++ ","
      ++ jsonStr "similarity" ++ ":" ++ toString s.similarity ++ ","
      ++ jsonStr "thumbnail" ++ ":" ++ jsonStr s.thumbnail ++ ","
      ++ jsonStr "additional_fields" ++ ":"
      ++ (match s.additional_fields with
          | some v => v
          | none => "null") ++ "\x7d"))

/-- `ToJSON::to_json` for `Vec<Sauce>` (handler.rs lines 722-724). -/
def to_json (v : List Sauce) : Except Error String :=
  Except.ok (serde_json_to_string v)

/-- `Handler::get_sauce_as_json` (handler.rs lines 659-662): call
`get_sauce`, propagate its error, serialize its value. -/
def get_sauce_as_json (h : Handler) (image_path : String) (num_results : Option Nat)
    (min_similarity : Option Rat) (file_ok : String → Bool) (resp : SauceResult) :
    List HttpRequest × Option (Except Error String × Handler) :=
  match get_sauce h image_path num_results min_similarity file_ok resp with
  | (reqs, none) => (reqs, none)
  | (reqs, some (Except.error e, h')) => (reqs, some (Except.error e, h'))
  | (reqs, some (Except.ok v, h')) => (reqs, some (Except.ok (serde_json_to_string v), h'))

/-! ## Bitmask lemmas -/

theorem bit_of_eq (m : Nat) : 2 ^ (m - (if 18 ≤ m then 1 else 0)) = bit_of m := by
  by_cases h18 : 18 ≤ m <;> simp [bit_of, h18]

theorem generate_bitmask_go_eq (mask : List Nat) : ∀ res : Nat,
    (∀ m ∈ mask, m - (if 18 ≤ m then 1 else 0) < 32) →
    generate_bitmask_go res mask =
      some ((mask.map bit_of).foldl (fun r b => r ^^^ b) res) := by
  induction mask with
  | nil => intro res _; rfl
  | cons m rest ih =>
    intro res h
    have hm := h m (List.mem_cons_self m rest)
    have hnot : ¬ 32 ≤ m - (if 18 ≤ m then 1 else 0) := by omega
    simp only [generate_bitmask_go, if_neg hnot, List.map_cons, List.foldl_cons]
    rw [bit_of_eq]
    exact ih _ (fun x hx => h x (List.mem_cons_of_mem m hx))

theorem generate_bitmask_eq_spec (mask : List Nat)
    (h : ∀ m ∈ mask, m - (if 18 ≤ m then 1 else 0) < 32) :
    generate_bitmask mask = some (bitmask_spec mask) :=
  generate_bitmask_go_eq mask 0 h

theorem foldl_xor_acc (l : List Nat) : ∀ acc : Nat,
    l.foldl (fun r b => r ^^^ b) acc = acc ^^^ l.foldl (fun r b => r ^^^ b) 0 := by
  induction l with
  | nil => intro acc; simp
  | cons c t ih =>
    intro acc
    simp only [List.foldl_cons]
    rw [ih (acc ^^^ c), ih (0 ^^^ c)]
    simp [Nat.xor_assoc]

theorem foldl_xor_map_erase (f : Nat → Nat) :
    ∀ (l : List Nat) (a : Nat), a ∈ l →
      (l.map f).foldl (fun r b => r ^^^ b) 0 =
        f a ^^^ ((l.erase a).map f).foldl (fun r b => r ^^^ b) 0 := by
  intro l
  induction l with
  | nil => intro a ha; cases ha
  | cons c t ih =>
    intro a ha
    by_cases hca : c = a
    · subst hca
      rw [List.erase_cons_head]
      simp only [List.map_cons, List.foldl_cons]
      rw [foldl_xor_acc]
      simp
    · have hat : a ∈ t := by
        cases List.mem_cons.mp ha with
        | inl h => exact absurd h.symm hca
        | inr h => exact h
      rw [List.erase_cons_tail]
      · simp only [List.map_cons, List.foldl_cons]
        rw [foldl_xor_acc (t.map f), foldl_xor_acc (((t.erase a).map f))]
        rw [ih a hat]
        simp only [Nat.zero_xor]
        rw [← Nat.xor_assoc, ← Nat.xor_assoc, Nat.xor_comm (f c) (f a)]
      · simp [hca]

theorem foldl_xor_map_even_aux (f : Nat → Nat) :
    ∀ (n : Nat) (l : List Nat), l.length ≤ n → (∀ b : Nat, Even (l.count b)) →
      (l.map f).foldl (fun r b => r ^^^ b) 0 = 0 := by
  intro n
  induction n with
  | zero =>
    intro l hl _
    have : l = [] := List.eq_nil_of_length_eq_zero (Nat.le_zero.mp hl)
    subst this; rfl
  | succ n ih =>
    intro l hl hev
    match l with
    | [] => rfl
    | a :: t =>
      have hcount : (a :: t).count a = t.count a + 1 := by
        simp [List.count_cons]
      have hodd : 0 < t.count a := by
        have := hev a
        rw [hcount, Nat.even_iff] at this
        omega
      have hat : a ∈ t := List.count_pos_iff.mp hodd
      have step : ((a :: t).map f).foldl (fun r b => r ^^^ b) 0 =
          ((t.erase a).map f).foldl (fun r b => r ^^^ b) 0 := by
        simp only [List.map_cons, List.foldl_cons]
        rw [foldl_xor_acc, Nat.zero_xor, foldl_xor_map_erase f t a hat]
        rw [← Nat.xor_assoc, Nat.xor_self, Nat.zero_xor]
      rw [step]
      apply ih (t.erase a)
      · calc (t.erase a).length ≤ t.length := List.length_erase_le a t
          _ ≤ n := by simpa using Nat.lt_succ_iff.mp (Nat.lt_of_lt_of_le (Nat.lt_succ_of_le (Nat.le_refl _)) (by simpa using hl))
      · intro b
        by_cases hba : b = a
        · subst hba
          rw [List.count_erase_self]
          have := hev b
          rw [hcount] at this
          rw [Nat.even_iff] at this ⊢
          omega
        · rw [List.count_erase_of_ne hba]
          have := hev b
          rw [List.count_cons] at this
          simpa [Ne.symm hba] using this

theorem bitmask_spec_even_zero (mask : List Nat)
    (hev : ∀ b : Nat, Even (mask.count b)) : bitmask_spec mask = 0 :=
  foldl_xor_map_even_aux bit_of mask.length mask (Nat.le_refl _) hev

/-- C1: for every vector of database indices whose corrected exponents fit
`u32` (see C10 for the overflow boundary), `generate_bitmask` returns the
XOR-fold, starting from 0, of one bit per element: `2 ^ (m - 1)` for each
element `m ≥ 18` and `2 ^ m` for each element `m < 18`. -/
theorem C1_generate_bitmask_xor_fold (mask : List Nat)
    (h : ∀ m ∈ mask, m - (if 18 ≤ m then 1 else 0) ≤ 31) :
    generate_bitmask mask = some (bitmask_spec mask) :=
  generate_bitmask_eq_spec mask (fun m hm => Nat.lt_succ_of_le (h m hm))

/-- Witness for C1 at the concrete mask `[0, 5, 18, 32]`. -/
theorem C1_witness :
    (∀ m ∈ [0, 5, 18, 32], m - (if 18 ≤ m then 1 else 0) ≤ 31) ∧
    generate_bitmask [0, 5, 18, 32] = some (bitmask_spec [0, 5, 18, 32]) :=
  ⟨by decide, C1_generate_bitmask_xor_fold [0, 5, 18, 32] (by decide)⟩

/-- C9: `generate_bitmask` is not injective on single-index masks: 17 and
18 both map to the bit `2 ^ 17`, the mask `[17, 18]` yields 0, and any
bounded mask in which every index occurs an even number of times yields
0 as well. -/
theorem C9_generate_bitmask_collisions :
    generate_bitmask [17] = some (2 ^ 17) ∧
    generate_bitmask [18] = some (2 ^ 17) ∧
    generate_bitmask [17, 18] = some 0 ∧
    ∀ mask : List Nat, (∀ m ∈ mask, m - (if 18 ≤ m then 1 else 0) ≤ 31) →
      (∀ b : Nat, Even (mask.count b)) → generate_bitmask mask = some 0 := by
  refine ⟨by decide, by decide, by decide, ?_⟩
  intro mask hb hev
  rw [generate_bitmask_eq_spec mask (fun m hm => Nat.lt_succ_of_le (hb m hm))]
  rw [bitmask_spec_even_zero mask hev]

/-- Witness for C9 at the concrete mask `[19, 19]`. -/
theorem C9_witness : generate_bitmask [19, 19] = some 0 :=
  C9_generate_bitmask_collisions.2.2.2 [19, 19] (by decide) (by
    intro b
    by_cases hb : b = 19
    · subst hb; decide
    · have hz : List.count b [19, 19] = 0 := by simp [List.count_cons, hb]
      rw [hz]; exact even_zero)

/-- C10: `generate_bitmask` is total exactly for masks whose corrected
exponents stay below 32 (so for indices up to 32); on a mask containing
33 the `u32::pow` computation overflows (a panic, modelled by `none`). -/
theorem C10_generate_bitmask_totality :
    (∀ mask : List Nat, (∀ m ∈ mask, m - (if 18 ≤ m then 1 else 0) ≤ 31) →
      (generate_bitmask mask).isSome = true) ∧
    generate_bitmask [33] = none := by
  refine ⟨?_, by decide⟩
  intro mask h
  rw [generate_bitmask_eq_spec mask (fun m hm => Nat.lt_succ_of_le (h m hm))]
  rfl

/-- Witness for C10 at the concrete mask `[0, 17, 18, 32]`. -/
theorem C10_witness :
    (∀ m ∈ [0, 17, 18, 32], m - (if 18 ≤ m then 1 else 0) ≤ 31) ∧
    (generate_bitmask [0, 17, 18, 32]).isSome = true :=
  ⟨by decide, C10_generate_bitmask_totality.1 [0, 17, 18, 32] (by decide)⟩

/-! ## Query-pair lemmas for `generate_url` -/

theorem db_part_filter (h : Handler) :
    (db_part h).filter (fun p => p.1 == "db") = db_part h ∧
    (db_part h).filter (fun p => p.1 == "dbmask") = [] ∧
    (db_part h).filter (fun p => p.1 == "dbmaski") = [] ∧
    (db_part h).filter (fun p => p.1 == "url") = [] := by
  unfold db_part; cases h.db <;> exact ⟨rfl, rfl, rfl, rfl⟩

theorem testmode_part_filter (h : Handler) :
    (testmode_part h).filter (fun p => p.1 == "db") = [] ∧
    (testmode_part h).filter (fun p => p.1 == "dbmask") = [] ∧
    (testmode_part h).filter (fun p => p.1 == "dbmaski") = [] ∧
    (testmode_part h).filter (fun p => p.1 == "url") = [] := by
  unfold testmode_part; cases h.testmode <;> exact ⟨rfl, rfl, rfl, rfl⟩

theorem numres_part_filter (h : Handler) (num_results : Option Nat) :
    (numres_part h num_results).filter (fun p => p.1 == "db") = [] ∧
    (numres_part h num_results).filter (fun p => p.1 == "dbmask") = [] ∧
    (numres_part h num_results).filter (fun p => p.1 == "dbmaski") = [] ∧
    (numres_part h num_results).filter (fun p => p.1 == "url") = [] := by
  unfold numres_part
  cases num_results <;> [skip; exact ⟨rfl, rfl, rfl, rfl⟩]
  cases h.num_results <;> exact ⟨rfl, rfl, rfl, rfl⟩

theorem url_part_filter (image_path : String) :
    (url_part image_path).filter (fun p => p.1 == "db") = [] ∧
    (url_part image_path).filter (fun p => p.1 == "dbmask") = [] ∧
    (url_part image_path).filter (fun p => p.1 == "dbmaski") = [] ∧
    (url_part image_path).filter (fun p => p.1 == "url") = url_part image_path := by
  unfold url_part; cases is_link image_path <;> exact ⟨rfl, rfl, rfl, rfl⟩

theorem dbmask_part_cases (h : Handler) (mp : List (String × String))
    (hmp : dbmask_part h = some mp) :
    (∃ val bm, h.db_mask = some val ∧ 0 < val.length ∧ generate_bitmask val = some bm ∧
        mp = [("dbmask", toString bm)]) ∨
    ((∀ val, h.db_mask = some val → val = []) ∧ h.db.isNone = true ∧ mp = [("db", "999")]) ∨
    ((∀ val, h.db_mask = some val → val = []) ∧ h.db.isNone = false ∧ mp = []) := by
  unfold dbmask_part at hmp
  split at hmp
  next val heq =>
    split at hmp
    next hlen =>
      cases hbm : generate_bitmask val with
      | none => rw [hbm] at hmp; cases hmp
      | some bm =>
        rw [hbm] at hmp
        exact Or.inl ⟨val, bm, heq, hlen, hbm, (Option.some.inj hmp).symm⟩
    next hlen =>
      have hval : val = [] := List.eq_nil_of_length_eq_zero (by omega)
      have hall : ∀ v, h.db_mask = some v → v = [] := by
        intro v hv
        rw [heq] at hv
        cases Option.some.inj hv
        exact hval
      split at hmp
      next hdb => exact Or.inr (Or.inl ⟨hall, hdb, (Option.some.inj hmp).symm⟩)
      next hdb =>
        exact Or.inr (Or.inr ⟨hall, by rwa [Bool.not_eq_true] at hdb, (Option.some.inj hmp).symm⟩)
  next heq =>
    have hall : ∀ v, h.db_mask = some v → v = [] := by
      intro v hv
      rw [heq] at hv
      exact Option.noConfusion hv
    split at hmp
    next hdb => exact Or.inr (Or.inl ⟨hall, hdb, (Option.some.inj hmp).symm⟩)
    next hdb =>
      exact Or.inr (Or.inr ⟨hall, by rwa [Bool.not_eq_true] at hdb, (Option.some.inj hmp).symm⟩)

theorem dbmaski_part_cases (h : Handler) (mip : List (String × String))
    (hmip : dbmaski_part h = some mip) :
    (∃ val bm, h.db_mask_i = some val ∧ 0 < val.length ∧ generate_bitmask val = some bm ∧
        mip = [("dbmaski", toString bm)]) ∨
    ((∀ val, h.db_mask_i = some val → val = []) ∧ mip = []) := by
  unfold dbmaski_part at hmip
  split at hmip
  next val heq =>
    split at hmip
    next hlen =>
      cases hbm : generate_bitmask val with
      | none => rw [hbm] at hmip; cases hmip
      | some bm =>
        rw [hbm] at hmip
        exact Or.inl ⟨val, bm, heq, hlen, hbm, (Option.some.inj hmip).symm⟩
    next hlen =>
      refine Or.inr ⟨?_, (Option.some.inj hmip).symm⟩
      intro v hv
      rw [heq] at hv
      cases Option.some.inj hv
      exact List.eq_nil_of_length_eq_zero (by omega)
  next heq =>
    refine Or.inr ⟨?_, (Option.some.inj hmip).symm⟩
    intro v hv
    rw [heq] at hv
    exact Option.noConfusion hv

theorem generate_url_shape (h : Handler) (image_path : String)
    (num_results : Option Nat) (ps : List (String × String))
    (hps : generate_url h image_path num_results = some ps) :
    ∃ mp mip, dbmask_part h = some mp ∧ dbmaski_part h = some mip ∧
      ps = [("api_key", h.api_key), ("output_type", toString h.output_type)]
        ++ db_part h ++ mp ++ mip ++ testmode_part h
        ++ numres_part h num_results ++ url_part image_path := by
  unfold generate_url at hps
  cases hmp : dbmask_part h with
  | none => rw [hmp] at hps; cases hps
  | some mp =>
    rw [hmp] at hps
    cases hmip : dbmaski_part h with
    | none => rw [hmip] at hps; cases hps
    | some mip =>
      rw [hmip] at hps
      exact ⟨mp, mip, rfl, rfl, ((Option.some.injEq _ _).mp hps).symm⟩

/-- C2: `generate_url` composes query parameters conditionally: the
default `db=999` pair is appended exactly when `db` is `None` and
`db_mask` is `None` or empty; a `dbmask` pair carrying
`generate_bitmask` of `db_mask` is appended exactly when `db_mask` is a
non-empty vector; a `dbmaski` pair exactly when `db_mask_i` is a
non-empty vector; and whenever `db` is `Some v` a `db=v` pair is
appended. -/
theorem C2_generate_url_conditional_params (h : Handler) (image_path : String)
    (num_results : Option Nat) (ps : List (String × String))
    (hps : generate_url h image_path num_results = some ps) :
    ((h.db = none ∧ (∀ val, h.db_mask = some val → val = [])) →
        ps.filter (fun p => p.1 == "db") = [("db", "999")])
  ∧ (∀ v, h.db = some v → ps.filter (fun p => p.1 == "db") = [("db", toString v)])
  ∧ ((h.db = none ∧ ∃ val, h.db_mask = some val ∧ val ≠ []) →
        ps.filter (fun p => p.1 == "db") = [])
  ∧ (∀ val, h.db_mask = some val → val ≠ [] →
        ∃ bm, generate_bitmask val = some bm ∧
          ps.filter (fun p => p.1 == "dbmask") = [("dbmask", toString bm)])
  ∧ ((∀ val, h.db_mask = some val → val = []) →
        ps.filter (fun p => p.1 == "dbmask") = [])
  ∧ (∀ val, h.db_mask_i = some val → val ≠ [] →
        ∃ bm, generate_bitmask val = some bm ∧
          ps.filter (fun p => p.1 == "dbmaski") = [("dbmaski", toString bm)])
  ∧ ((∀ val, h.db_mask_i = some val → val = []) →
        ps.filter (fun p => p.1 == "dbmaski") = []) := by
  obtain ⟨mp, mip, hmp, hmip, hshape⟩ :=
    generate_url_shape h image_path num_results ps hps
  subst hshape
  simp only [List.filter_append]
  have hdbf := db_part_filter h
  have htmf := testmode_part_filter h
  have hnrf := numres_part_filter h num_results
  have huf := url_part_filter image_path
  have hbase_db :
      List.filter (fun p => p.1 == "db")
        [("api_key", h.api_key), ("output_type", toString h.output_type)] = [] := rfl
  have hbase_dbm :
      List.filter (fun p => p.1 == "dbmask")
        [("api_key", h.api_key), ("output_type", toString h.output_type)] = [] := rfl
  have hbase_dbmi :
      List.filter (fun p => p.1 == "dbmaski")
        [("api_key", h.api_key), ("output_type", toString h.output_type)] = [] := rfl
  have hmip_db : mip.filter (fun p => p.1 == "db") = [] := by
    rcases dbmaski_part_cases h mip hmip with ⟨val, bm, _, _, _, hval⟩ | ⟨_, hval⟩ <;>
      rw [hval] <;> rfl
  have hmip_dbm : mip.filter (fun p => p.1 == "dbmask") = [] := by
    rcases dbmaski_part_cases h mip hmip with ⟨val, bm, _, _, _, hval⟩ | ⟨_, hval⟩ <;>
      rw [hval] <;> rfl
  refine ⟨?_, ?_, ?_, ?_, ?_, ?_, ?_⟩
  · rintro ⟨hdb, hmask⟩
    have hdbp : db_part h = [] := by rw [db_part, hdb]
    have hmp_db : mp.filter (fun p => p.1 == "db") = [("db", "999")] := by
      rcases dbmask_part_cases h mp hmp with
        ⟨val, bm, hv, hlen, _, _⟩ | ⟨_, _, hval⟩ | ⟨_, hnone, _⟩
      · exact absurd (hmask val hv) (by intro he; rw [he] at hlen; exact absurd hlen (by simp))
      · rw [hval]; rfl
      · rw [hdb] at hnone; cases hnone
    rw [hbase_db, hdbp, hmp_db, hmip_db, htmf.1, hnrf.1, huf.1]
    rfl
  · intro v hv
    have hdbp : db_part h = [("db", v.repr)] := by rw [db_part, hv]; rfl
    have hmp_db : mp.filter (fun p => p.1 == "db") = [] := by
      rcases dbmask_part_cases h mp hmp with
        ⟨val, bm, _, _, _, hval⟩ | ⟨_, hnone, _⟩ | ⟨_, _, hval⟩
      · rw [hval]; rfl
      · rw [hv] at hnone; cases hnone
      · rw [hval]; rfl
    rw [hbase_db, hdbf.1, hdbp, hmp_db, hmip_db, htmf.1, hnrf.1, huf.1]
    rfl
  · rintro ⟨hdb, val, hv, hne⟩
    have hdbp : db_part h = [] := by rw [db_part, hdb]
    have hmp_db : mp.filter (fun p => p.1 == "db") = [] := by
      rcases dbmask_part_cases h mp hmp with
        ⟨val2, bm, _, _, _, hval⟩ | ⟨hmask, _, _⟩ | ⟨hmask, _, hval⟩
      · rw [hval]; rfl
      · exact absurd (hmask val hv) hne
      · rw [hval]; rfl
    rw [hbase_db, hdbp, hmp_db, hmip_db, htmf.1, hnrf.1, huf.1]
    rfl
  · intro val hv hne
    rcases dbmask_part_cases h mp hmp with
      ⟨val2, bm, hv2, hlen, hbm, hval⟩ | ⟨hmask, _, _⟩ | ⟨hmask, _, _⟩
    · rw [hv] at hv2
      cases Option.some.inj hv2
      refine ⟨bm, hbm, ?_⟩
      have hmp_dbm : mp.filter (fun p => p.1 == "dbmask") = [("dbmask", toString bm)] := by
        rw [hval]; rfl
      rw [hbase_dbm, hdbf.2.1, hmp_dbm, hmip_dbm, htmf.2.1, hnrf.2.1, huf.2.1]
      rfl
    · exact absurd (hmask val hv) hne
    · exact absurd (hmask val hv) hne
  · intro hmask
    have hmp_dbm : mp.filter (fun p => p.1 == "dbmask") = [] := by
      rcases dbmask_part_cases h mp hmp with
        ⟨val, bm, hv, hlen, _, _⟩ | ⟨_, _, hval⟩ | ⟨_, _, hval⟩
      · exact absurd (hmask val hv) (by intro he; rw [he] at hlen; exact absurd hlen (by simp))
      · rw [hval]; rfl
      · rw [hval]; rfl
    rw [hbase_dbm, hdbf.2.1, hmp_dbm, hmip_dbm, htmf.2.1, hnrf.2.1, huf.2.1]
    rfl
  · intro val hv hne
    rcases dbmaski_part_cases h mip hmip with
      ⟨val2, bm, hv2, hlen, hbm, hval⟩ | ⟨hmask, _⟩
    · rw [hv] at hv2
      cases Option.some.inj hv2
      refine ⟨bm, hbm, ?_⟩
      have hmp_dbmi : mp.filter (fun p => p.1 == "dbmaski") = [] := by
        rcases dbmask_part_cases h mp hmp with
          ⟨val3, bm3, _, _, _, hval3⟩ | ⟨_, _, hval3⟩ | ⟨_, _, hval3⟩ <;>
          rw [hval3] <;> rfl
      have hmip_dbmi : mip.filter (fun p => p.1 == "dbmaski") = [("dbmaski", toString bm)] := by
        rw [hval]; rfl
      rw [hbase_dbmi, hdbf.2.2.1, hmp_dbmi, hmip_dbmi, htmf.2.2.1, hnrf.2.2.1, huf.2.2.1]
      rfl
    · exact absurd (hmask val hv) hne
  · intro hmask
    have hmp_dbmi : mp.filter (fun p => p.1 == "dbmaski") = [] := by
      rcases dbmask_part_cases h mp hmp with
        ⟨val3, bm3, _, _, _, hval3⟩ | ⟨_, _, hval3⟩ | ⟨_, _, hval3⟩ <;>
        rw [hval3] <;> rfl
    have hmip_dbmi : mip.filter (fun p => p.1 == "dbmaski") = [] := by
      rcases dbmaski_part_cases h mip hmip with
        ⟨val, bm, hv, hlen, _, _⟩ | ⟨_, hval⟩
      · exact absurd (hmask val hv) (by intro he; rw [he] at hlen; exact absurd hlen (by simp))
      · rw [hval]; rfl
    rw [hbase_dbmi, hdbf.2.2.1, hmp_dbmi, hmip_dbmi, htmf.2.2.1, hnrf.2.2.1, huf.2.2.1]
    rfl

/-- Witness for C2: a handler with a non-empty `db_mask`, a non-empty
`db_mask_i` and no `db`, on a concrete image URL. -/
theorem C2_witness :
    (∀ val, (Handler.new "k" none (some [5, 9]) (some [3]) none none).db_mask = some val →
        val ≠ []) ∧
    ∃ bm, generate_bitmask [5, 9] = some bm ∧
      ((generate_url (Handler.new "k" none (some [5, 9]) (some [3]) none none)
          "https://a/b.jpg" none).getD []).filter (fun p => p.1 == "dbmask") =
        [("dbmask", toString bm)] :=
  ⟨by decide, by
    have hurl : generate_url (Handler.new "k" none (some [5, 9]) (some [3]) none none)
        "https://a/b.jpg" none =
        some [("api_key", "k"), ("output_type", "2"), ("dbmask", "544"), ("dbmaski", "8"),
          ("testmode", "0"), ("numres", "999"), ("url", "https://a/b.jpg")] := by decide
    rw [hurl, Option.getD_some]
    exact (C2_generate_url_conditional_params
      (Handler.new "k" none (some [5, 9]) (some [3]) none none) "https://a/b.jpg" none
      [("api_key", "k"), ("output_type", "2"), ("dbmask", "544"), ("dbmaski", "8"),
        ("testmode", "0"), ("numres", "999"), ("url", "https://a/b.jpg")]
      hurl).2.2.2.1 [5, 9] rfl (by decide)⟩

theorem generate_url_url_filter (h : Handler) (image_path : String)
    (num_results : Option Nat) (ps : List (String × String))
    (hps : generate_url h image_path num_results = some ps) :
    ps.filter (fun p => p.1 == "url") = url_part image_path := by
  obtain ⟨mp, mip, hmp, hmip, hshape⟩ :=
    generate_url_shape h image_path num_results ps hps
  subst hshape
  simp only [List.filter_append]
  have hbase :
      List.filter (fun p => p.1 == "url")
        [("api_key", h.api_key), ("output_type", toString h.output_type)] = [] := rfl
  have hmpu : mp.filter (fun p => p.1 == "url") = [] := by
    rcases dbmask_part_cases h mp hmp with
      ⟨_, _, _, _, _, hval⟩ | ⟨_, _, hval⟩ | ⟨_, _, hval⟩ <;> rw [hval] <;> rfl
  have hmipu : mip.filter (fun p => p.1 == "url") = [] := by
    rcases dbmaski_part_cases h mip hmip with
      ⟨_, _, _, _, _, hval⟩ | ⟨_, hval⟩ <;> rw [hval] <;> rfl
  rw [hbase, (db_part_filter h).2.2.2, hmpu, hmipu, (testmode_part_filter h).2.2.2,
    (numres_part_filter h num_results).2.2.2, (url_part_filter image_path).2.2.2]
  simp

theorem get_sauce_req_shape (h : Handler) (image_path : String)
    (num_results : Option Nat) (min_similarity : Option Rat)
    (file_ok : String → Bool) (resp : SauceResult) (req : HttpRequest)
    (rest : List HttpRequest)
    (out : Option (Except Error (List Sauce) × Handler))
    (hc : get_sauce h image_path num_results min_similarity file_ok resp = (req :: rest, out)) :
    rest = [] ∧ ∃ query, generate_url h image_path num_results = some query ∧
      req = ⟨query, if is_link image_path then [] else [FormPart.file "file" image_path]⟩ := by
  unfold get_sauce at hc
  split at hc
  · simp at hc
  · split at hc
    · simp at hc
    · unfold get_sauce_after_validation at hc
      cases hqu : generate_url h image_path num_results with
      | none => rw [hqu] at hc; simp at hc
      | some query =>
        rw [hqu] at hc
        simp only [] at hc
        split at hc
        · simp at hc
        · split at hc
          · split at hc
            · split at hc
              · split at hc
                · obtain ⟨h1, -⟩ := Prod.mk.injEq .. ▸ hc
                  obtain ⟨h2, h3⟩ := List.cons.inj h1.symm
                  exact ⟨h3, query, rfl, h2⟩
                · obtain ⟨h1, -⟩ := Prod.mk.injEq .. ▸ hc
                  obtain ⟨h2, h3⟩ := List.cons.inj h1.symm
                  exact ⟨h3, query, rfl, h2⟩
              · obtain ⟨h1, -⟩ := Prod.mk.injEq .. ▸ hc
                obtain ⟨h2, h3⟩ := List.cons.inj h1.symm
                exact ⟨h3, query, rfl, h2⟩
            · obtain ⟨h1, -⟩ := Prod.mk.injEq .. ▸ hc
              obtain ⟨h2, h3⟩ := List.cons.inj h1.symm
              exact ⟨h3, query, rfl, h2⟩
          · obtain ⟨h1, -⟩ := Prod.mk.injEq .. ▸ hc
            obtain ⟨h2, h3⟩ := List.cons.inj h1.symm
            exact ⟨h3, query, rfl, h2⟩

/-- C3: `get_sauce` submits the image by URL exactly when `image_path`
starts with `https://` or `http://`: in that case the generated request
URL contains a `url` query pair and the multipart form is empty;
otherwise the URL contains no `url` pair and `image_path` is attached to
the form as a file upload named `file`. -/
theorem C3_get_sauce_submission_mode (h : Handler) (image_path : String)
    (num_results : Option Nat) (min_similarity : Option Rat)
    (file_ok : String → Bool) (resp : SauceResult) (req : HttpRequest)
    (rest : List HttpRequest)
    (out : Option (Except Error (List Sauce) × Handler))
    (hc : get_sauce h image_path num_results min_similarity file_ok resp = (req :: rest, out)) :
    ((strStartsWith image_path "https://" || strStartsWith image_path "http://") = true →
       ("url", image_path) ∈ req.query ∧ req.form = [])
  ∧ ((strStartsWith image_path "https://" || strStartsWith image_path "http://") = false →
       (∀ v, ("url", v) ∉ req.query) ∧ req.form = [FormPart.file "file" image_path]) := by
  obtain ⟨-, query, hqu, hreq⟩ :=
    get_sauce_req_shape h image_path num_results min_similarity file_ok resp
      req rest out hc
  have hfil := generate_url_url_filter h image_path num_results query hqu
  constructor
  · intro hlink
    have hlink' : is_link image_path = true := hlink
    constructor
    · have hurl : url_part image_path = [("url", image_path)] := by
        rw [url_part, if_pos hlink']
      have hmem : ("url", image_path) ∈ query.filter (fun p => p.1 == "url") := by
        rw [hfil, hurl]; exact List.mem_singleton.mpr rfl
      have : ("url", image_path) ∈ query := List.mem_of_mem_filter hmem
      rw [hreq]
      exact this
    · rw [hreq]
      simp [hlink']
  · intro hlink
    have hlink' : is_link image_path = false := hlink
    constructor
    · intro v hv
      rw [hreq] at hv
      have hmem : ("url", v) ∈ query.filter (fun p => p.1 == "url") :=
        List.mem_filter.mpr ⟨hv, rfl⟩
      rw [hfil, url_part, if_neg (by simp [hlink'])] at hmem
      cases hmem
    · rw [hreq]
      simp [hlink']

/-- Witness for C3 at a link path and at a local file path. -/
theorem C3_witness :
    (("url", "https://a/b.jpg") ∈
        (⟨[("api_key", "k"), ("output_type", "2"), ("db", "999"), ("testmode", "0"),
           ("numres", "999"), ("url", "https://a/b.jpg")], []⟩ : HttpRequest).query ∧
      (⟨[("api_key", "k"), ("output_type", "2"), ("db", "999"), ("testmode", "0"),
         ("numres", "999"), ("url", "https://a/b.jpg")], []⟩ : HttpRequest).form = []) ∧
    ((∀ v, ("url", v) ∉
        (⟨[("api_key", "k"), ("output_type", "2"), ("db", "999"), ("testmode", "0"),
           ("numres", "999")], [FormPart.file "file" "./a.jpg"]⟩ : HttpRequest).query) ∧
      (⟨[("api_key", "k"), ("output_type", "2"), ("db", "999"), ("testmode", "0"),
         ("numres", "999")], [FormPart.file "file" "./a.jpg"]⟩ : HttpRequest).form =
        [FormPart.file "file" "./a.jpg"]) := by
  constructor
  · exact (C3_get_sauce_submission_mode (Handler.new "k" none none none none none)
      "https://a/b.jpg" none none (fun _ => true)
      ⟨⟨0, 4, 99, "30", "100", "ok"⟩, none⟩ _ []
      (some (Except.ok [], { Handler.new "k" none none none none none with
        short_left := 4, long_left := 99, short_limit := 30, long_limit := 100 }))
      (by decide)).1 (by decide)
  · exact (C3_get_sauce_submission_mode (Handler.new "k" none none none none none)
      "./a.jpg" none none (fun _ => true)
      ⟨⟨0, 4, 99, "30", "100", "ok"⟩, none⟩ _ []
      (some (Except.ok [], { Handler.new "k" none none none none none with
        short_left := 4, long_left := 99, short_limit := 30, long_limit := 100 }))
      (by decide)).2 (by decide)

theorem get_sauce_state_inversion (h : Handler) (image_path : String)
    (num_results : Option Nat) (min_similarity : Option Rat)
    (file_ok : String → Bool) (resp : SauceResult) (req : HttpRequest)
    (rest : List HttpRequest) (r : Except Error (List Sauce)) (h' : Handler)
    (hs : 0 ≤ resp.header.status)
    (hc : get_sauce h image_path num_results min_similarity file_ok resp =
      (req :: rest, some (r, h'))) :
    ∃ sl ll, parseU32 resp.header.short_limit = some sl ∧
      parseU32 resp.header.long_limit = some ll ∧
      h' = { h with short_left := resp.header.short_remaining
                    long_left := resp.header.long_remaining
                    short_limit := sl
                    long_limit := ll } := by
  unfold get_sauce at hc
  split at hc
  · simp at hc
  · split at hc
    · simp at hc
    · unfold get_sauce_after_validation at hc
      cases hqu : generate_url h image_path num_results with
      | none => rw [hqu] at hc; simp at hc
      | some query =>
        rw [hqu] at hc
        simp only [] at hc
        split at hc
        · simp at hc
        · cases hsl : parseU32 resp.header.short_limit with
          | none => rw [hsl] at hc; simp at hc
          | some sl =>
            rw [hsl] at hc
            cases hll : parseU32 resp.header.long_limit with
            | none => rw [hll] at hc; simp at hc
            | some ll =>
              rw [hll] at hc
              refine ⟨sl, ll, rfl, rfl, ?_⟩
              cases hres : resp.results with
              | none =>
                rw [hres] at hc
                simp only [Prod.mk.injEq, Option.some.injEq] at hc
                exact hc.2.2.symm
              | some res =>
                rw [hres] at hc
                simp only [Option.some.injEq] at hc
                split at hc
                all_goals try split at hc
                all_goals
                  first
                  | (simp only [Prod.mk.injEq, Option.some.injEq] at hc
                     exact hc.2.2.symm)
                  | simp at hc

/-- C4: whenever `get_sauce` receives a server response whose header
status is at least 0, it updates the handler's rate-limit cells, so the
four getters return exactly the `short_remaining`, `long_remaining`,
`short_limit` and `long_limit` values reported in that response header
(the limits being reported as strings and stored parsed). -/
theorem C4_get_sauce_rate_limits (h : Handler) (image_path : String)
    (num_results : Option Nat) (min_similarity : Option Rat)
    (file_ok : String → Bool) (resp : SauceResult) (req : HttpRequest)
    (rest : List HttpRequest) (r : Except Error (List Sauce)) (h' : Handler)
    (hs : 0 ≤ resp.header.status)
    (hc : get_sauce h image_path num_results min_similarity file_ok resp =
      (req :: rest, some (r, h'))) :
    get_current_short_limit h' = resp.header.short_remaining ∧
    get_current_long_limit h' = resp.header.long_remaining ∧
    parseU32 resp.header.short_limit = some (get_short_limit h') ∧
    parseU32 resp.header.long_limit = some (get_long_limit h') := by
  obtain ⟨sl, ll, hsl, hll, hupd⟩ :=
    get_sauce_state_inversion h image_path num_results min_similarity file_ok resp
      req rest r h' hs hc
  subst hupd
  exact ⟨rfl, rfl, hsl, hll⟩

/-- Witness for C4 at a concrete response with status 0 and limits
reported as `"30"` and `"100"`. -/
theorem C4_witness :
    get_current_short_limit { Handler.new "k" none none none none none with
        short_left := 4, long_left := 99, short_limit := 30, long_limit := 100 } = 4 ∧
    get_current_long_limit { Handler.new "k" none none none none none with
        short_left := 4, long_left := 99, short_limit := 30, long_limit := 100 } = 99 ∧
    parseU32 "30" = some (get_short_limit { Handler.new "k" none none none none none with
        short_left := 4, long_left := 99, short_limit := 30, long_limit := 100 }) ∧
    parseU32 "100" = some (get_long_limit { Handler.new "k" none none none none none with
        short_left := 4, long_left := 99, short_limit := 30, long_limit := 100 }) :=
  C4_get_sauce_rate_limits (Handler.new "k" none none none none none)
    "https://a/b.jpg" none none (fun _ => true)
    ⟨⟨0, 4, 99, "30", "100", "ok"⟩, none⟩
    ⟨[("api_key", "k"), ("output_type", "2"), ("db", "999"), ("testmode", "0"),
      ("numres", "999"), ("url", "https://a/b.jpg")], []⟩
    [] (Except.ok []) _ (by decide) (by decide)

/-- C7: every call to `get_sauce` performs at most one HTTP POST request,
whatever the outcome: there is no retry or backoff, so a call never
issues a second request. -/
theorem C7_get_sauce_single_request (h : Handler) (image_path : String)
    (num_results : Option Nat) (min_similarity : Option Rat)
    (file_ok : String → Bool) (resp : SauceResult) :
    (get_sauce h image_path num_results min_similarity file_ok resp).1.length ≤ 1 := by
  unfold get_sauce
  split
  · simp
  · split
    · simp
    · unfold get_sauce_after_validation
      cases generate_url h image_path num_results with
      | none => simp
      | some query =>
        simp only []
        split
        · simp
        · split
          all_goals try split
          all_goals try split
          all_goals try split
          all_goals simp

theorem after_validation_no_invalid_parameter (h : Handler) (image_path : String)
    (num_results : Option Nat) (min_similarity : Option Rat)
    (file_ok : String → Bool) (resp : SauceResult) (reqs : List HttpRequest)
    (m : String) (h' : Handler) :
    get_sauce_after_validation h image_path num_results min_similarity file_ok resp ≠
      (reqs, some (Except.error (Error.invalid_parameter m), h')) := by
  intro hc
  unfold get_sauce_after_validation at hc
  cases hqu : generate_url h image_path num_results with
  | none => rw [hqu] at hc; simp at hc
  | some query =>
    rw [hqu] at hc
    simp only [] at hc
    split at hc
    · simp at hc
    · split at hc
      all_goals try split at hc
      all_goals try split at hc
      all_goals try split at hc
      all_goals simp at hc

/-- C8: a `num_results` argument above 999 or a `min_similarity` argument
outside `[0, 100]` makes `get_sauce` return an invalid-parameter error
before any HTTP request, with the handler state unchanged; the boundary
values 999, 0 and 100 pass validation and never produce an
invalid-parameter error. -/
theorem C8_get_sauce_validation :
    (∀ (h : Handler) (image_path : String) (n : Nat) (min_similarity : Option Rat)
        (file_ok : String → Bool) (resp : SauceResult), 999 < n →
      get_sauce h image_path (some n) min_similarity file_ok resp =
        ([], some (Except.error
          (Error.invalid_parameter "num_results must be less than 999."), h)))
  ∧ (∀ (h : Handler) (image_path : String) (num_results : Option Nat) (s : Rat)
        (file_ok : String → Bool) (resp : SauceResult),
      num_results_invalid num_results = false → 100 < s ∨ s < 0 →
      get_sauce h image_path num_results (some s) file_ok resp =
        ([], some (Except.error
          (Error.invalid_parameter
            "min_similarity must be less 100.0 and greater than 0.0."), h)))
  ∧ (∀ (h : Handler) (image_path : String) (file_ok : String → Bool)
        (resp : SauceResult) (reqs : List HttpRequest) (m : String) (h' : Handler),
      get_sauce h image_path (some 999) (some 0) file_ok resp ≠
        (reqs, some (Except.error (Error.invalid_parameter m), h')))
  ∧ (∀ (h : Handler) (image_path : String) (file_ok : String → Bool)
        (resp : SauceResult) (reqs : List HttpRequest) (m : String) (h' : Handler),
      get_sauce h image_path (some 999) (some 100) file_ok resp ≠
        (reqs, some (Except.error (Error.invalid_parameter m), h'))) := by
  refine ⟨?_, ?_, ?_, ?_⟩
  · intro h image_path n min_similarity file_ok resp hn
    unfold get_sauce
    rw [if_pos (by simp [num_results_invalid, hn])]
  · intro h image_path num_results s file_ok resp hnum hsim
    unfold get_sauce
    rw [if_neg (by simp [hnum]), if_pos ?_]
    have : decide (100 < s) || decide (s < 0) = true := by
      rcases hsim with hgt | hlt
      · simp [hgt]
      · simp [hlt]
    simpa [min_similarity_invalid] using this
  · intro h image_path file_ok resp reqs m h' hc
    unfold get_sauce at hc
    rw [if_neg (show ¬(num_results_invalid (some 999) = true) by decide),
      if_neg (show ¬(min_similarity_invalid (some 0) = true) by decide)] at hc
    exact after_validation_no_invalid_parameter h image_path (some 999) (some 0)
      file_ok resp reqs m h' hc
  · intro h image_path file_ok resp reqs m h' hc
    unfold get_sauce at hc
    rw [if_neg (show ¬(num_results_invalid (some 999) = true) by decide),
      if_neg (show ¬(min_similarity_invalid (some 100) = true) by decide)] at hc
    exact after_validation_no_invalid_parameter h image_path (some 999) (some 100)
      file_ok resp reqs m h' hc

/-- Witness for C8 at the concrete out-of-range argument 1000. -/
theorem C8_witness :
    get_sauce (Handler.new "k" none none none none none) "./a.jpg" (some 1000) none
      (fun _ => true) ⟨⟨0, 1, 2, "30", "100", ""⟩, none⟩ =
      ([], some (Except.error
        (Error.invalid_parameter "num_results must be less than 999."),
        Handler.new "k" none none none none none)) :=
  C8_get_sauce_validation.1 (Handler.new "k" none none none none none) "./a.jpg" 1000
    none (fun _ => true) ⟨⟨0, 1, 2, "30", "100", ""⟩, none⟩ (by decide)

theorem passes_filter_true_iff (ef : Bool) (amin : Rat) (raw : RawSauce) (sim : Rat)
    (hsim : parseF64 raw.header.similarity = some sim) :
    passes_filter ef amin raw = true ↔
      (amin ≤ sim ∧ ((ef = true ∧ 0 < raw.data.ext_urls.length) ∨ ¬ ef = true)) := by
  unfold passes_filter
  rw [hsim]
  simp [Bool.and_eq_true, Bool.or_eq_true, decide_eq_true_eq]

theorem process_results_eq (ef : Bool) (amin : Rat) :
    ∀ (res : List RawSauce) (l : List Sauce),
      process_results ef amin res = some l →
      l = (res.filter (passes_filter ef amin)).map
            (fun raw => convert_sauce raw ((parse_index raw.header.index_name).getD 0)
              ((parseF64 raw.header.similarity).getD 0)) ∧
      ∀ raw ∈ res.filter (passes_filter ef amin),
        (parse_index raw.header.index_name).isSome = true := by
  intro res
  induction res with
  | nil =>
    intro l hl
    have : l = [] := (Option.some.inj hl).symm
    subst this
    exact ⟨rfl, by intro raw hraw; cases hraw⟩
  | cons raw rest ih =>
    intro l hl
    unfold process_results at hl
    cases hsim : parseF64 raw.header.similarity with
    | none => rw [hsim] at hl; simp at hl
    | some sim =>
      rw [hsim] at hl
      simp only [Option.bind_eq_bind, Option.some_bind] at hl
      by_cases hpass : amin ≤ sim ∧ ((ef = true ∧ 0 < raw.data.ext_urls.length) ∨ ¬ ef = true)
      · rw [if_pos hpass] at hl
        cases hidx : parse_index raw.header.index_name with
        | none => rw [hidx] at hl; simp at hl
        | some idx =>
          rw [hidx] at hl
          simp only [Option.bind_eq_bind, Option.some_bind] at hl
          cases hrest : process_results ef amin rest with
          | none => rw [hrest] at hl; simp at hl
          | some more =>
            rw [hrest] at hl
            simp only [Option.bind_eq_bind, Option.some_bind, Option.pure_def, Option.some.injEq] at hl
            obtain ⟨ihl, ihp⟩ := ih more hrest
            have hpf : passes_filter ef amin raw = true :=
              (passes_filter_true_iff ef amin raw sim hsim).mpr hpass
            subst hl
            constructor
            · rw [List.filter_cons_of_pos hpf, List.map_cons]
              rw [hidx, hsim, Option.getD_some, Option.getD_some, ← ihl]
            · intro raw2 hmem
              rw [List.filter_cons_of_pos hpf] at hmem
              cases List.mem_cons.mp hmem with
              | inl he => subst he; rw [hidx]; rfl
              | inr he => exact ihp raw2 he
      · rw [if_neg hpass] at hl
        have hpf : passes_filter ef amin raw = false := by
          rw [← Bool.not_eq_true]
          intro hco
          exact hpass ((passes_filter_true_iff ef amin raw sim hsim).mp hco)
        obtain ⟨ihl, ihp⟩ := ih l hl
        rw [List.filter_cons_of_neg (by rw [hpf]; exact Bool.false_ne_true)]
        exact ⟨ihl, ihp⟩


theorem get_sauce_ok_inversion (h : Handler) (image_path : String)
    (num_results : Option Nat) (min_similarity : Option Rat)
    (file_ok : String → Bool) (resp : SauceResult) (req : HttpRequest)
    (rest : List HttpRequest) (l : List Sauce) (h' : Handler)
    (hc : get_sauce h image_path num_results min_similarity file_ok resp =
      (req :: rest, some (Except.ok l, h'))) :
    0 ≤ resp.header.status ∧
    ((resp.results = none ∧ l = []) ∨
      ∃ res, resp.results = some res ∧
        process_results h.empty_filter_enabled (min_similarity.getD h.min_similarity) res =
          some l) := by
  unfold get_sauce at hc
  split at hc
  · simp at hc
  · split at hc
    · simp at hc
    · unfold get_sauce_after_validation at hc
      cases hqu : generate_url h image_path num_results with
      | none => rw [hqu] at hc; simp at hc
      | some query =>
        rw [hqu] at hc
        simp only [] at hc
        split at hc
        · simp at hc
        · by_cases hs : 0 ≤ resp.header.status
          · refine ⟨hs, ?_⟩
            rw [if_pos hs] at hc
            cases hsl : parseU32 resp.header.short_limit with
            | none => rw [hsl] at hc; simp at hc
            | some sl =>
              rw [hsl] at hc
              cases hll : parseU32 resp.header.long_limit with
              | none => rw [hll] at hc; simp at hc
              | some ll =>
                rw [hll] at hc
                cases hres : resp.results with
                | none =>
                  rw [hres] at hc
                  simp only [Prod.mk.injEq, Option.some.injEq, Except.ok.injEq] at hc
                  exact Or.inl ⟨rfl, hc.2.1.symm⟩
                | some res =>
                  rw [hres] at hc
                  refine Or.inr ⟨res, rfl, ?_⟩
                  cases hms : min_similarity with
                  | none =>
                    rw [hms] at hc
                    simp only [Option.some.injEq] at hc
                    simp only [Option.getD_none]
                    split at hc
                    next l2 heq =>
                      simp only [Prod.mk.injEq, Option.some.injEq, Except.ok.injEq] at hc
                      rw [heq, hc.2.1]
                    next heq => simp at hc
                  | some ms =>
                    rw [hms] at hc
                    simp only [Option.some.injEq] at hc
                    simp only [Option.getD_some]
                    split at hc
                    next l2 heq =>
                      simp only [Prod.mk.injEq, Option.some.injEq, Except.ok.injEq] at hc
                      rw [heq, hc.2.1]
                    next heq => simp at hc
          · rw [if_neg hs] at hc
            simp at hc

theorem convert_sauce_index (raw : RawSauce) (i : Nat) (sim : Rat) :
    (convert_sauce raw i sim).index = i := by
  unfold convert_sauce
  cases get_source i <;> rfl

/-- C6: when the server response has status at least 0 and carries raw
results, `get_sauce` returns `Ok` with one typed `Sauce` per raw result
passing the filter (parsed similarity at least the effective minimum —
the per-call argument if `Some`, else the handler's stored value — and,
with the empty filter enabled, a non-empty `ext_urls`); each retained
`Sauce` carries the index parsed from the response's `index_name`. -/
theorem C6_get_sauce_result_filtering (h : Handler) (image_path : String)
    (num_results : Option Nat) (min_similarity : Option Rat)
    (file_ok : String → Bool) (resp : SauceResult) (req : HttpRequest)
    (rest : List HttpRequest) (l : List Sauce) (h' : Handler)
    (res : List RawSauce)
    (hres : resp.results = some res)
    (hc : get_sauce h image_path num_results min_similarity file_ok resp =
      (req :: rest, some (Except.ok l, h'))) :
    0 ≤ resp.header.status ∧
    l = (res.filter (passes_filter h.empty_filter_enabled
          (min_similarity.getD h.min_similarity))).map
        (fun raw => convert_sauce raw ((parse_index raw.header.index_name).getD 0)
          ((parseF64 raw.header.similarity).getD 0)) ∧
    ∀ s ∈ l, ∃ raw, raw ∈ res ∧
      passes_filter h.empty_filter_enabled (min_similarity.getD h.min_similarity) raw = true ∧
      parse_index raw.header.index_name = some s.index := by
  obtain ⟨hs, hcase⟩ :=
    get_sauce_ok_inversion h image_path num_results min_similarity file_ok resp
      req rest l h' hc
  rcases hcase with ⟨hn, -⟩ | ⟨res2, hres2, hproc⟩
  · rw [hres] at hn; cases hn
  · rw [hres] at hres2
    cases Option.some.inj hres2
    obtain ⟨hl, hp⟩ := process_results_eq _ _ res l hproc
    refine ⟨hs, hl, ?_⟩
    intro s hsmem
    rw [hl] at hsmem
    obtain ⟨raw, hrawmem, hconv⟩ := List.mem_map.mp hsmem
    have hfm := List.mem_filter.mp hrawmem
    obtain ⟨idx, hidx⟩ :=
      Option.isSome_iff_exists.mp (hp raw hrawmem)
    have hsidx : s.index = idx := by
      rw [← hconv, convert_sauce_index, hidx, Option.getD_some]
    exact ⟨raw, hfm.1, hfm.2, by rw [hidx, hsidx]⟩

/-- Witness for C6 at a concrete response with one passing result of
similarity `95.5` and index name `Index #5: Pixiv`. -/
theorem C6_witness :
    [(⟨["u"], "T", "Pixiv", 5, 7, mkRat 955 10, "t", some "af"⟩ : Sauce)] =
      (([⟨⟨"95.5", "t", 7, "Index #5: Pixiv"⟩, ⟨["u"], "T", "af"⟩⟩] : List RawSauce).filter
          (passes_filter false (0 : Rat))).map
        (fun raw => convert_sauce raw ((parse_index raw.header.index_name).getD 0)
          ((parseF64 raw.header.similarity).getD 0)) :=
  (C6_get_sauce_result_filtering (Handler.new "k" none none none none none)
    "https://a/b.jpg" none none (fun _ => true)
    ⟨⟨0, 4, 99, "30", "100", "ok"⟩,
      some [⟨⟨"95.5", "t", 7, "Index #5: Pixiv"⟩, ⟨["u"], "T", "af"⟩⟩]⟩
    ⟨[("api_key", "k"), ("output_type", "2"), ("db", "999"), ("testmode", "0"),
      ("numres", "999"), ("url", "https://a/b.jpg")], []⟩
    [] [⟨["u"], "T", "Pixiv", 5, 7, mkRat 955 10, "t", some "af"⟩]
    { Handler.new "k" none none none none none with
      short_left := 4, long_left := 99, short_limit := 30, long_limit := 100 }
    [⟨⟨"95.5", "t", 7, "Index #5: Pixiv"⟩, ⟨["u"], "T", "af"⟩⟩]
    rfl (by decide)).2.1

/-- C5: `get_sauce_as_json` is serialization composed with `get_sauce`:
it returns `Ok s` exactly when `get_sauce` on the same arguments returns
`Ok v` with `s` the serde_json serialization of `v`, propagating errors;
and `to_json` on a `Sauce` vector is that same serialization. -/
theorem C5_get_sauce_as_json_refinement :
    (∀ (h : Handler) (image_path : String) (num_results : Option Nat)
        (min_similarity : Option Rat) (file_ok : String → Bool) (resp : SauceResult),
      get_sauce_as_json h image_path num_results min_similarity file_ok resp =
        ((get_sauce h image_path num_results min_similarity file_ok resp).1,
          (get_sauce h image_path num_results min_similarity file_ok resp).2.map
            (fun p => (p.1.map serde_json_to_string, p.2))))
  ∧ (∀ (h : Handler) (image_path : String) (num_results : Option Nat)
        (min_similarity : Option Rat) (file_ok : String → Bool) (resp : SauceResult)
        (s : String) (h' : Handler) (reqs : List HttpRequest),
      get_sauce_as_json h image_path num_results min_similarity file_ok resp =
        (reqs, some (Except.ok s, h')) ↔
      ∃ v, get_sauce h image_path num_results min_similarity file_ok resp =
        (reqs, some (Except.ok v, h')) ∧ s = serde_json_to_string v)
  ∧ (∀ v : List Sauce, to_json v = Except.ok (serde_json_to_string v)) := by
  have heq : ∀ (h : Handler) (image_path : String) (num_results : Option Nat)
      (min_similarity : Option Rat) (file_ok : String → Bool) (resp : SauceResult),
      get_sauce_as_json h image_path num_results min_similarity file_ok resp =
        ((get_sauce h image_path num_results min_similarity file_ok resp).1,
          (get_sauce h image_path num_results min_similarity file_ok resp).2.map
            (fun p => (p.1.map serde_json_to_string, p.2))) := by
    intro h image_path num_results min_similarity file_ok resp
    unfold get_sauce_as_json
    rcases hgs : get_sauce h image_path num_results min_similarity file_ok resp with ⟨reqs0, o⟩
    rcases o with - | ⟨e | v, h''⟩ <;> rfl
  refine ⟨heq, ?_, fun v => rfl⟩
  intro h image_path num_results min_similarity file_ok resp s h' reqs
  rw [heq]
  rcases hgs : get_sauce h image_path num_results min_similarity file_ok resp with ⟨reqs0, o⟩
  rcases o with - | ⟨e | v, h''⟩
  · simp
  · simp [Except.map]
  · simp only [Option.map_some', Except.map, Prod.mk.injEq, Option.some.injEq,
      Except.ok.injEq]
    constructor
    · rintro ⟨h1, h2, h3⟩
      exact ⟨v, ⟨h1, rfl, h3⟩, h2.symm⟩
    · rintro ⟨v2, ⟨h1, h2, h3⟩, h4⟩
      cases h2
      exact ⟨h1, h4.symm, h3⟩

end RustNAO
